import Mathlib

/-!
Verification of the Spiel25 interactive hall-map viewer.

The development shallowly embeds the favorites-list management, geometry
conversion, exhibitor matching and print-zoom logic of `src/Map.tsx` and
`src/EasyPrintControl.tsx`. Browser state (localStorage, the URL fragment,
React component state) is modelled as an explicit record, and each UI event
handler together with the favorites-synchronization effect that React runs
after it becomes a state transition function.
-/

/-! ### JavaScript string primitives

The source manipulates strings through a handful of JavaScript built-ins
(`split`, `trim`, `startsWith`, template literals, `Number`). They are
modelled here on the character-list representation of `String`, so that all
definitions compute by structural recursion.
-/

/-- Model of JavaScript `s.split(sep)` for a single-character separator
(the source only ever splits on `"|"`, `"."` and `","`). Always returns at
least one token. -/
def jsSplit (sep : Char) (s : String) : List String :=
  jsSplitGo sep s.data []
where
  /-- Accumulates the current token's characters in reverse. -/
  jsSplitGo (sep : Char) : List Char → List Char → List String
    | [], acc => [String.mk acc.reverse]
    | c :: cs, acc =>
      if c = sep then String.mk acc.reverse :: jsSplitGo sep cs []
      else jsSplitGo sep cs (c :: acc)

/-- Model of JavaScript `s.trim()`: strip leading and trailing whitespace. -/
def jsTrim (s : String) : String :=
  String.mk (((s.data.dropWhile Char.isWhitespace).reverse.dropWhile
    Char.isWhitespace).reverse)

/-- Model of JavaScript `s.startsWith(pre)`. -/
def jsStartsWith (s pre : String) : Bool :=
  pre.data.isPrefixOf s.data

/-- Drop the first `n` characters of a string; models
`k.replace("favorites:", "")` on keys already known to start with
`"favorites:"` (for such keys, replacing the first occurrence of the
pattern removes exactly the leading 10 characters). -/
def strDrop (s : String) (n : Nat) : String :=
  String.mk (s.data.drop n)

/-- JavaScript string-or-default `a || d` where `a` is a possibly absent
string: `null`/`undefined` and the empty string are falsy. -/
def jsOrStr : Option String → String → String
  | some s, d => if s = "" then d else s
  | none, d => d

/-- JavaScript truthiness test for a possibly absent string. -/
def isTruthyStr : Option String → Bool
  | some s => s != ""
  | none => false

/-- Truthy projection of a possibly absent string: `some s` exactly when
`s` is truthy (non-null and nonempty). -/
def truthyStr : Option String → Option String
  | some s => if s = "" then none else some s
  | none => none

/-! ### JavaScript numbers

Coordinates flow through the JavaScript `Number` conversion, which yields
`NaN` on non-numeric input; `NaN` is represented explicitly. -/

/-- A JavaScript number as used by the geometry code: either a numeric
value or `NaN`. -/
inductive JNum where
  | nan : JNum
  | num : Int → JNum
deriving DecidableEq, Repr

/-- JavaScript unary minus; `NaN` propagates. -/
def jneg : JNum → JNum
  | JNum.nan => JNum.nan
  | JNum.num n => JNum.num (-n)

/-- Reads an unsigned decimal integer literal, `none` on any other input. -/
def digitsToNat (l : List Char) : Option Nat :=
  if l ≠ [] ∧ l.all Char.isDigit then
    some (l.foldl (fun n c => n * 10 + (c.toNat - 48)) 0)
  else none

/-- Modelled from the spec: the JavaScript `Number` conversion (an external
collaborator used at `Map.tsx`'s coordinate parsing), restricted to
optionally negated decimal-integer tokens as they occur in the map data.
The empty string converts to `0` (as in JavaScript); any other non-integer
token is treated as non-numeric and yields `NaN`. -/
def jsNumber (s : String) : JNum :=
  match s.data with
  | [] => JNum.num 0
  | '-' :: rest =>
    match digitsToNat rest with
    | some n => JNum.num (-(n : Int))
    | none => JNum.nan
  | l =>
    match digitsToNat l with
    | some n => JNum.num (n : Int)
    | none => JNum.nan

/-! ### localStorage model

`localStorage` is a key-value store; every value the app reads or writes
under the favorites keys is a JSON array of strings, so values are
modelled directly as `List String` (JSON round-trips them). The
association list preserves key insertion order, matching the enumeration
order of `Object.keys` for these non-numeric keys. -/

/-- `localStorage.setItem`: update an existing key in place, else append. -/
def setItem : List (String × List String) → String → List String →
    List (String × List String)
  | [], k, v => [(k, v)]
  | (k', v') :: rest, k, v =>
    if k' = k then (k, v) :: rest else (k', v') :: setItem rest k v

/-- `localStorage.getItem` (first binding of the key). -/
def getItem : List (String × List String) → String → Option (List String)
  | [], _ => none
  | (k', v) :: rest, k => if k' = k then some v else getItem rest k

/-- `localStorage.removeItem`. -/
def removeItem (store : List (String × List String)) (k : String) :
    List (String × List String) :=
  store.filter (fun kv => kv.fst != k)

/-- The list-name registry: scan storage keys for the `favorites:` pattern
and strip the pattern, as in `Object.keys(localStorage)
.filter((k) => k.startsWith("favorites:")).map((k) => k.replace("favorites:", ""))`. -/
def listNames (store : List (String × List String)) : List String :=
  ((store.map Prod.fst).filter (fun k => jsStartsWith k "favorites:")).map
    (fun k => strDrop k "favorites:".length)

/-! ### Favorites toggling (`toggleFavorite` in `Map.tsx`) -/

/-- The pure state-update step of `toggleFavorite`: remove the label if
present, else append it. -/
def toggleFavorite (label : String) (prev : List String) : List String :=
  if prev.contains label then prev.filter (fun f => f != label)
  else prev ++ [label]

/-- Filtering out a label that is not in the list is the identity. -/
theorem filter_ne_of_not_mem (label : String) (l : List String)
    (h : label ∉ l) : l.filter (fun f => f != label) = l := by
  rw [List.filter_eq_self]
  intro x hx
  simp only [bne_iff_ne, ne_eq]
  exact fun e => h (e ▸ hx)

/-- Toggling a label that is absent from the list, twice, restores the
list exactly. -/
theorem toggleFavorite_twice_of_not_mem (label : String) (prev : List String)
    (h : label ∉ prev) :
    toggleFavorite label (toggleFavorite label prev) = prev := by
  unfold toggleFavorite
  rw [if_neg (fun hc => h (List.elem_iff.mp hc)),
    if_pos (List.elem_iff.mpr (List.mem_append.mpr (Or.inr (List.mem_singleton.mpr rfl)))),
    List.filter_append, filter_ne_of_not_mem label prev h]
  simp

/-- Toggling any label twice preserves membership: a label belongs to the
resulting list exactly when it belonged to the original list. -/
theorem toggleFavorite_twice_mem (label x : String) (prev : List String) :
    x ∈ toggleFavorite label (toggleFavorite label prev) ↔ x ∈ prev := by
  by_cases h : label ∈ prev
  · have h1 : toggleFavorite label prev = prev.filter (fun f => f != label) := by
      unfold toggleFavorite
      rw [if_pos (List.elem_iff.mpr h)]
    have h2 : label ∉ prev.filter (fun f => f != label) := by
      simp [List.mem_filter]
    rw [h1]
    unfold toggleFavorite
    rw [if_neg (fun hc => h2 (List.elem_iff.mp hc))]
    simp only [List.mem_append, List.mem_filter, List.mem_singleton, bne_iff_ne, ne_eq]
    constructor
    · rintro (⟨hx, _⟩ | rfl)
      · exact hx
      · exact h
    · intro hx
      by_cases e : x = label
      · exact Or.inr e
      · exact Or.inl ⟨hx, e⟩
  · rw [toggleFavorite_twice_of_not_mem label prev h]

/-- C2 counterexample: toggling the label `"a"` twice on the list
`["a", "b"]` yields `["b", "a"]`, not the original ordered sequence
`["a", "b"]` — the re-added label moves to the end. -/
theorem toggleFavorite_twice_not_ordered_identity :
    toggleFavorite "a" (toggleFavorite "a" ["a", "b"]) ≠ ["a", "b"] := by
  decide

/-- C2 (amended): toggling a booth label twice in sequence preserves the
membership of the favorites list (every label belongs to the result exactly
when it belonged before), and when the toggled label was not in the list
the ordered sequence is restored exactly. -/
theorem toggleFavorite_twice_amended (prev : List String) (label : String) :
    (∀ x, x ∈ toggleFavorite label (toggleFavorite label prev) ↔ x ∈ prev) ∧
      (label ∉ prev →
        toggleFavorite label (toggleFavorite label prev) = prev) :=
  ⟨fun x => toggleFavorite_twice_mem label x prev,
    toggleFavorite_twice_of_not_mem label prev⟩

/-- C2 witness: the amended toggle theorem applied to the concrete list
`["x", "y"]` and the absent label `"z"`. -/
theorem toggleFavorite_twice_amended_witness :
    ("z" ∉ ["x", "y"]) ∧
      toggleFavorite "z" (toggleFavorite "z" ["x", "y"]) = ["x", "y"] :=
  ⟨by decide, (toggleFavorite_twice_amended ["x", "y"] "z").2 (by decide)⟩

/-! ### Map data model (`Map.tsx` type definitions) -/

/-- A raw map element record as fetched per hall (`SpielMapElement`).
Numeric fields hold the integer values occurring in the map data;
`TYPE = 0` marks a stand. -/
structure SpielMapElement where
  ID : String
  KARTEN_ID : String
  X : Int
  Y : Int
  W : Int
  H : Int
  XCOORDS : Option String
  YCOORDS : Option String
  TYPE : Int
  STAND_ID : Option String
  NAME : Option String
deriving DecidableEq, Repr

/-- A company directory record (`SpielCompany`). -/
structure SpielCompany where
  id : Int
  name : String
  description : String
  website : Option String
  booths : List String
deriving DecidableEq, Repr

/-! ### Geometry Adapter (coordinate conversion in `mapStands`) -/

/-- Coordinate conversion of one map element: with both coordinate lists
truthy, pipe-split each, convert tokens with `Number`, and emit
`[-yCoords[i], x]` for each indexed x-token (an out-of-range y access is
`undefined`, whose negation is `NaN`); otherwise synthesize the four
flipped rectangle corners from `X`, `Y`, `W`, `H`. -/
def standPoints (e : SpielMapElement) : List (JNum × JNum) :=
  match truthyStr e.XCOORDS, truthyStr e.YCOORDS with
  | some xs, some ys =>
    let xCoords := (jsSplit '|' xs).map jsNumber
    let yCoords := (jsSplit '|' ys).map jsNumber
    xCoords.mapIdx (fun i x => (jneg (yCoords.getD i JNum.nan), x))
  | _, _ =>
    [(JNum.num (-e.Y), JNum.num e.X),
     (JNum.num (-e.Y), JNum.num (e.X + e.W)),
     (JNum.num (-(e.Y + e.H)), JNum.num (e.X + e.W)),
     (JNum.num (-(e.Y + e.H)), JNum.num e.X)]

/-! ### Exhibitor Matcher (company merge in `mapStands`) -/

/-- The stand identifier of an element: `element.STAND_ID || element.NAME
|| ""`. -/
def standIdOf (e : SpielMapElement) : String :=
  jsOrStr e.STAND_ID (jsOrStr e.NAME "")

/-- The booth name used for matching: `standId.split(".").pop() ||
standId` — the token after the last dot, falling back to the whole
identifier when that token is empty. -/
def boothNameOf (standId : String) : String :=
  match (jsSplit '.' standId).getLast? with
  | some last => if last = "" then standId else last
  | none => standId

/-- The merged website: the website of the first matching company with a
truthy website, or the empty string
(`matchingCompanies.find((c) => c.website)?.website || ""`). -/
def websiteOf (matchingCompanies : List SpielCompany) : String :=
  match matchingCompanies.find? (fun c => isTruthyStr c.website) with
  | some c => jsOrStr c.website ""
  | none => ""

/-- The merged exhibitor view model built for each stand element. -/
structure MergedExhibitor where
  stand : String
  title : String
  description : String
  logo : Option String
  website : String
  url : String
  booths : List String
deriving DecidableEq, Repr

/-- The exhibitor merge: match companies whose booth list contains the
booth name, then join names with `" / "`, join descriptions with a blank
line, take the first truthy website, and take the first matching company's
booth set; fall back to the element's own name (or `"Unknown"`) and to
`[boothName]` when no company matches. -/
def mergedExhibitor (e : SpielMapElement) (companies : List SpielCompany) :
    MergedExhibitor :=
  let standId := standIdOf e
  let boothName := boothNameOf standId
  let matchingCompanies :=
    companies.filter (fun company => company.booths.contains boothName)
  { stand := standId
    title :=
      if matchingCompanies.length > 0 then
        String.intercalate " / " (matchingCompanies.map (fun c => c.name))
      else jsOrStr e.NAME "Unknown"
    description :=
      if matchingCompanies.length > 0 then
        String.intercalate "\n\n" (matchingCompanies.map (fun c => c.description))
      else "No description available"
    logo := none
    website := websiteOf matchingCompanies
    url := websiteOf matchingCompanies
    booths :=
      match matchingCompanies with
      | [] => [boothName]
      | c :: _ => c.booths }

/-- One rendered stand view model. -/
structure MapStand where
  label : String
  points : List (JNum × JNum)
  exhibitor : MergedExhibitor
deriving DecidableEq, Repr

/-- The full stand pipeline of `mapStands`: keep elements of `TYPE` 0 with
a truthy stand id or name, build label, points and merged exhibitor, and
drop stands whose point list is empty. -/
def mapStands (mapElements : List SpielMapElement)
    (companies : List SpielCompany) : List MapStand :=
  let standElements := mapElements.filter
    (fun e => e.TYPE == 0 && (isTruthyStr e.STAND_ID || isTruthyStr e.NAME))
  (standElements.map (fun e =>
    { label := standIdOf e, points := standPoints e,
      exhibitor := mergedExhibitor e companies })).filter
    (fun stand => stand.points.length > 0)

/-! ### Geometry Adapter properties -/

/-- The split worker never returns an empty token list. -/
theorem jsSplitGo_ne_nil (sep : Char) (l acc : List Char) :
    jsSplit.jsSplitGo sep l acc ≠ [] := by
  induction l generalizing acc with
  | nil => simp [jsSplit.jsSplitGo]
  | cons c cs ih =>
    unfold jsSplit.jsSplitGo
    by_cases h : c = sep
    · simp [h]
    · simpa [h] using ih (c :: acc)

/-- Splitting any string yields at least one token, as with JavaScript's
`String.split`. -/
theorem jsSplit_ne_nil (sep : Char) (s : String) : jsSplit sep s ≠ [] :=
  jsSplitGo_ne_nil sep s.data []

/-- Indexed pairing with defaulted lookup coincides with `zipWith` when
the two lists have equal length. -/
theorem mapIdx_getD_eq_zipWith (xs ys : List JNum) (h : xs.length = ys.length) :
    xs.mapIdx (fun i x => (jneg (ys.getD i JNum.nan), x)) =
      List.zipWith (fun x y => (jneg y, x)) xs ys := by
  induction xs generalizing ys with
  | nil => simp
  | cons x xs ih =>
    cases ys with
    | nil => simp at h
    | cons y ys' =>
      rw [List.mapIdx_cons, List.zipWith_cons_cons]
      simp only [List.getD_cons_zero, List.getD_cons_succ]
      exact congrArg _ (ih ys' (by simpa using h))

/-- With both coordinate lists truthy, `standPoints` is the indexed
pairing over the x-token list. -/
theorem standPoints_of_truthy (e : SpielMapElement) (xs ys : String)
    (hx : truthyStr e.XCOORDS = some xs) (hy : truthyStr e.YCOORDS = some ys) :
    standPoints e = ((jsSplit '|' xs).map jsNumber).mapIdx
      (fun i x => (jneg (((jsSplit '|' ys).map jsNumber).getD i JNum.nan), x)) := by
  unfold standPoints
  rw [hx, hy]

/-- Without both coordinate lists truthy, `standPoints` is the flipped
rectangle. -/
theorem standPoints_of_rect (e : SpielMapElement)
    (h : truthyStr e.XCOORDS = none ∨ truthyStr e.YCOORDS = none) :
    standPoints e =
      [(JNum.num (-e.Y), JNum.num e.X),
       (JNum.num (-e.Y), JNum.num (e.X + e.W)),
       (JNum.num (-(e.Y + e.H)), JNum.num (e.X + e.W)),
       (JNum.num (-(e.Y + e.H)), JNum.num e.X)] := by
  rcases h with h | h
  · unfold standPoints
    rw [h]
  · cases hx : truthyStr e.XCOORDS with
    | none =>
      unfold standPoints
      rw [hx]
    | some xs =>
      unfold standPoints
      rw [hx, h]

/-- The map element of the spec's polygon example: `XCOORDS="0|10|10|0"`,
`YCOORDS="0|0|10|10"`. -/
def examplePolyElement : SpielMapElement :=
  { ID := "E1", KARTEN_ID := "1", X := 0, Y := 0, W := 0, H := 0,
    XCOORDS := some "0|10|10|0", YCOORDS := some "0|0|10|10", TYPE := 0,
    STAND_ID := some "1.E211", NAME := none }

/-- The map element of the spec's rectangle example: no coordinate lists
and `X=5`, `Y=5`, `W=2`, `H=3`. -/
def exampleRectElement : SpielMapElement :=
  { ID := "E2", KARTEN_ID := "1", X := 5, Y := 5, W := 2, H := 3,
    XCOORDS := none, YCOORDS := none, TYPE := 0,
    STAND_ID := some "1.A1", NAME := none }

/-- C3: the Geometry Adapter pairs the pipe-split numeric tokens
index-wise and emits each pair `(x, y)` as the point `(-y, x)` when both
coordinate lists are present (stated via `zipWith` for token lists of
equal length), and otherwise emits the four flipped rectangle corners
`[(-Y, X), (-Y, X+W), (-(Y+H), X+W), (-(Y+H), X)]` in that order; in
particular the two concrete examples of the specification hold. -/
theorem standPoints_correct :
    (∀ e xs ys, truthyStr e.XCOORDS = some xs → truthyStr e.YCOORDS = some ys →
      ((jsSplit '|' xs).map jsNumber).length =
        ((jsSplit '|' ys).map jsNumber).length →
      standPoints e = List.zipWith (fun x y => (jneg y, x))
        ((jsSplit '|' xs).map jsNumber) ((jsSplit '|' ys).map jsNumber)) ∧
    (∀ e, truthyStr e.XCOORDS = none ∨ truthyStr e.YCOORDS = none →
      standPoints e =
        [(JNum.num (-e.Y), JNum.num e.X),
         (JNum.num (-e.Y), JNum.num (e.X + e.W)),
         (JNum.num (-(e.Y + e.H)), JNum.num (e.X + e.W)),
         (JNum.num (-(e.Y + e.H)), JNum.num e.X)]) ∧
    standPoints examplePolyElement =
      [(JNum.num 0, JNum.num 0), (JNum.num 0, JNum.num 10),
       (JNum.num (-10), JNum.num 10), (JNum.num (-10), JNum.num 0)] ∧
    standPoints exampleRectElement =
      [(JNum.num (-5), JNum.num 5), (JNum.num (-5), JNum.num 7),
       (JNum.num (-8), JNum.num 7), (JNum.num (-8), JNum.num 5)] := by
  refine ⟨fun e xs ys hx hy hlen => ?_, standPoints_of_rect, by decide, by decide⟩
  rw [standPoints_of_truthy e xs ys hx hy, mapIdx_getD_eq_zipWith _ _ hlen]

/-- C3 witness: the polygon branch of the geometry theorem applied to the
spec's concrete example element. -/
theorem standPoints_correct_witness :
    truthyStr examplePolyElement.XCOORDS = some "0|10|10|0" ∧
      truthyStr examplePolyElement.YCOORDS = some "0|0|10|10" ∧
      standPoints examplePolyElement = List.zipWith (fun x y => (jneg y, x))
        ((jsSplit '|' "0|10|10|0").map jsNumber)
        ((jsSplit '|' "0|0|10|10").map jsNumber) :=
  ⟨by decide, by decide,
    standPoints_correct.1 examplePolyElement "0|10|10|0" "0|0|10|10"
      (by decide) (by decide) (by decide)⟩

/-- The map element for the mismatched-token example: three x-tokens but
only two y-tokens. -/
def exampleMismatchElement : SpielMapElement :=
  { ID := "E3", KARTEN_ID := "1", X := 0, Y := 0, W := 0, H := 0,
    XCOORDS := some "0|10|10", YCOORDS := some "0|5", TYPE := 0,
    STAND_ID := some "1.B1", NAME := none }

/-- C10: when both coordinate lists are truthy, the produced point list
has exactly as many points as `XCOORDS` has tokens; every point at an
index beyond the y-token count has `NaN` as its first coordinate; the
point list is nonempty, and such a stand is kept by `mapStands`'
empty-point-list filter whenever it passes the stand-element selection. -/
theorem standPoints_token_mismatch (e : SpielMapElement) (xs ys : String)
    (hx : truthyStr e.XCOORDS = some xs) (hy : truthyStr e.YCOORDS = some ys) :
    (standPoints e).length = (jsSplit '|' xs).length ∧
      (∀ i, (hi : i < (standPoints e).length) → (jsSplit '|' ys).length ≤ i →
        ((standPoints e).get ⟨i, hi⟩).1 = JNum.nan) ∧
      0 < (standPoints e).length ∧
      (∀ companies, e.TYPE = 0 →
        (isTruthyStr e.STAND_ID || isTruthyStr e.NAME) = true →
        mapStands [e] companies =
          [{ label := standIdOf e, points := standPoints e,
             exhibitor := mergedExhibitor e companies }]) := by
  have hpts := standPoints_of_truthy e xs ys hx hy
  have hlen : (standPoints e).length = (jsSplit '|' xs).length := by
    rw [hpts, List.length_mapIdx, List.length_map]
  have hpos : 0 < (standPoints e).length := by
    rw [hlen]
    exact List.length_pos.mpr (jsSplit_ne_nil '|' xs)
  refine ⟨hlen, fun i hi hge => ?_, hpos, fun companies hT htr => ?_⟩
  · have hi' : i < (((jsSplit '|' xs).map jsNumber).mapIdx
        (fun i x => (jneg (((jsSplit '|' ys).map jsNumber).getD i JNum.nan), x))).length := by
      rw [← hpts]
      exact hi
    have hget : (standPoints e).get ⟨i, hi⟩ =
        (((jsSplit '|' xs).map jsNumber).mapIdx
          (fun i x => (jneg (((jsSplit '|' ys).map jsNumber).getD i JNum.nan),
            x))).get ⟨i, hi'⟩ := by
      rw [List.get_eq_getElem, List.get_eq_getElem]
      congr 1
    rw [hget, List.get_eq_getElem, List.getElem_mapIdx]
    have hd : ((jsSplit '|' ys).map jsNumber).getD i JNum.nan = JNum.nan :=
      List.getD_eq_default _ _ (by simpa [List.length_map] using hge)
    rw [hd]
    rfl
  · have hsel : (e.TYPE == 0 && (isTruthyStr e.STAND_ID || isTruthyStr e.NAME)) = true := by
      simp [hT, htr]
    have hkeep : decide (0 < (standPoints e).length) = true := decide_eq_true hpos
    simp only [mapStands, List.filter_cons, List.filter_nil, hsel, if_true,
      List.map_cons, List.map_nil]
    simp [hpos]

/-- C10 witness: the mismatch theorem applied to a concrete element with
three x-tokens and two y-tokens; the third point's first coordinate is
`NaN` and the stand is still produced by `mapStands`. -/
theorem standPoints_token_mismatch_witness :
    (standPoints exampleMismatchElement).length = (jsSplit '|' "0|10|10").length ∧
      ((standPoints exampleMismatchElement).get ⟨2, by decide⟩).1 = JNum.nan ∧
      mapStands [exampleMismatchElement] [] =
        [{ label := standIdOf exampleMismatchElement,
           points := standPoints exampleMismatchElement,
           exhibitor := mergedExhibitor exampleMismatchElement [] }] := by
  have h := standPoints_token_mismatch exampleMismatchElement "0|10|10" "0|5"
    (by decide) (by decide)
  exact ⟨h.1, h.2.1 2 (by decide) (by decide), h.2.2.2 [] (by decide) (by decide)⟩

/-! ### Exhibitor Matcher properties -/

/-- The substring of a label after its last dot, as worded by the
specification of the Exhibitor Matcher (for a label without a dot this is
the whole label). -/
def afterLastDot (label : String) : String :=
  ((jsSplit '.' label).getLast?).getD label

/-- The exhibitor merge as worded by the claim before amendment: companies
are matched on the substring after the last dot of the stand label. -/
def claimMergedExhibitor (e : SpielMapElement) (companies : List SpielCompany) :
    MergedExhibitor :=
  let label := standIdOf e
  let matching := companies.filter
    (fun company => company.booths.contains (afterLastDot label))
  { stand := label
    title :=
      if matching.isEmpty then jsOrStr e.NAME "Unknown"
      else String.intercalate " / " (matching.map (fun c => c.name))
    description :=
      if matching.isEmpty then "No description available"
      else String.intercalate "\n\n" (matching.map (fun c => c.description))
    logo := none
    website := websiteOf matching
    url := websiteOf matching
    booths :=
      match matching.head? with
      | some c => c.booths
      | none => [afterLastDot label] }

/-- The exhibitor merge as worded by the amended claim: the matching key
is the substring after the last dot, except that when that substring is
empty (label ending in a dot) the whole label is used instead. -/
def amendedMergedExhibitor (e : SpielMapElement)
    (companies : List SpielCompany) : MergedExhibitor :=
  let label := standIdOf e
  let key := if afterLastDot label = "" then label else afterLastDot label
  let matching := companies.filter
    (fun company => company.booths.contains key)
  { stand := label
    title :=
      if matching.isEmpty then jsOrStr e.NAME "Unknown"
      else String.intercalate " / " (matching.map (fun c => c.name))
    description :=
      if matching.isEmpty then "No description available"
      else String.intercalate "\n\n" (matching.map (fun c => c.description))
    logo := none
    website := websiteOf matching
    url := websiteOf matching
    booths :=
      match matching.head? with
      | some c => c.booths
      | none => [key] }

/-- The element of the counterexample: a stand whose label ends in a dot,
so the substring after the last dot is empty. -/
def exampleDotElement : SpielMapElement :=
  { ID := "E4", KARTEN_ID := "1", X := 0, Y := 0, W := 0, H := 0,
    XCOORDS := none, YCOORDS := none, TYPE := 0,
    STAND_ID := some "1.", NAME := none }

/-- A company claiming the literal booth label `"1."`. -/
def exampleDotCompany : SpielCompany :=
  { id := 9, name := "A", description := "d", website := none,
    booths := ["1."] }

/-- C4 counterexample: for the stand label `"1."` the substring after the
last dot is empty, and the code falls back to matching on the whole label:
the merged title is `"A"` (the company claiming booth `"1."`), while the
claim's matching rule yields no match and the fallback title `"Unknown"`. -/
theorem mergedExhibitor_dot_label_diverges :
    (mergedExhibitor exampleDotElement [exampleDotCompany]).title = "A" ∧
      (claimMergedExhibitor exampleDotElement [exampleDotCompany]).title =
        "Unknown" ∧
      afterLastDot "1." = "" := by
  decide

/-- The code's booth name coincides with the amended claim's matching
key. -/
theorem boothNameOf_eq_amended_key (label : String) :
    boothNameOf label =
      (if afterLastDot label = "" then label else afterLastDot label) := by
  unfold boothNameOf afterLastDot
  cases h : (jsSplit '.' label).getLast? with
  | none => simp
  | some last => simp

/-- The element of the spec's merge example, labelled `"1.E211"`. -/
def exampleABElement : SpielMapElement :=
  { ID := "E5", KARTEN_ID := "1", X := 0, Y := 0, W := 0, H := 0,
    XCOORDS := none, YCOORDS := none, TYPE := 0,
    STAND_ID := some "1.E211", NAME := none }

/-- Company `"A"` of the merge example, claiming booth `"E211"`. -/
def exampleCompanyA : SpielCompany :=
  { id := 1, name := "A", description := "da", website := none,
    booths := ["E211"] }

/-- Company `"B"` of the merge example, also claiming booth `"E211"`. -/
def exampleCompanyB : SpielCompany :=
  { id := 2, name := "B", description := "db", website := none,
    booths := ["E211"] }

/-- C4 (amended): for every booth-type map element and company list, the
merged exhibitor info matches companies on the substring after the

label's last dot — or on the whole label when that substring is empty —
and merges them as described (names joined with " / ", descriptions with a
blank line, first truthy website, first match's booth set, with the
element-name/Unknown fallback); in particular two companies claiming booth
E211 against label "1.E211" yield the title "A / B". -/
theorem mergedExhibitor_correct :
    (∀ e companies, e.TYPE = 0 →
      mergedExhibitor e companies = amendedMergedExhibitor e companies) ∧
      (mergedExhibitor exampleABElement
        [exampleCompanyA, exampleCompanyB]).title = "A / B" := by
  refine ⟨fun e companies _ => ?_, by decide⟩
  dsimp only [mergedExhibitor, amendedMergedExhibitor]
  rw [← boothNameOf_eq_amended_key (standIdOf e)]
  cases hm : companies.filter
      (fun company => company.booths.contains (boothNameOf (standIdOf e))) with
  | nil => simp [hm]
  | cons c rest => simp [hm]

/-- C4 witness: the amended merge theorem applied to the spec's example
element and companies. -/
theorem mergedExhibitor_correct_witness :
    mergedExhibitor exampleABElement [exampleCompanyA, exampleCompanyB] =
      amendedMergedExhibitor exampleABElement
        [exampleCompanyA, exampleCompanyB] :=
  mergedExhibitor_correct.1 exampleABElement
    [exampleCompanyA, exampleCompanyB] (by decide)

/-! ### URL fragment, compression codec and app state -/

/-- Modelled from the spec: the lz-string compression pair (an external
library), a reversible compression of the comma-joined label list.
Decompression may fail by throwing (`Except.error`) or by returning
`null` (`Except.ok none`), both of which the callers must tolerate. -/
structure Codec where
  compressToEncodedURIComponent : String → String
  decompressFromEncodedURIComponent : String → Except Unit (Option String)

/-- The URL fragment in its query-string shape: the `list` and `favs`
parameters (`none` when the parameter is absent). -/
structure Fragment where
  list : Option String
  favs : Option String
deriving DecidableEq, Repr

/-- The mutable browser-visible state: localStorage, the URL fragment,
and the component state `listKey` and `favorites`. -/
structure AppState where
  store : List (String × List String)
  frag : Fragment
  listKey : Option String
  favorites : List String
deriving DecidableEq, Repr

/-! ### Decoding favorites from the URL (`loadInitialList`, favs branch) -/

/-- The `favs` decoding step of `loadInitialList`: an absent or empty
parameter yields `[]`; a decompression failure is caught (with a console
warning) and yields `[]`; a `null` or empty decompression yields `[]`;
otherwise the decoded string is comma-split, trimmed and cleaned of empty
entries. -/
def decodeFavs (codec : Codec) (favEncoded : Option String) : List String :=
  match favEncoded with
  | none => []
  | some enc =>
    if enc = "" then []
    else
      match codec.decompressFromEncodedURIComponent enc with
      | Except.error _ => []
      | Except.ok none => []
      | Except.ok (some decoded) =>
        if decoded = "" then []
        else ((jsSplit ',' decoded).map jsTrim).filter (fun f => f != "")

/-- C5: decoding the `favs` parameter is a total function that never
propagates an error: an absent or empty parameter yields the empty
favorites list, and every failure mode of the decompressor — an exception
(caught with a warning), a `null` result, or an empty result — falls back
to the empty list. -/
theorem decodeFavs_never_throws (codec : Codec) :
    decodeFavs codec none = [] ∧
      decodeFavs codec (some "") = [] ∧
      (∀ s, codec.decompressFromEncodedURIComponent s = Except.error () →
        decodeFavs codec (some s) = []) ∧
      (∀ s, codec.decompressFromEncodedURIComponent s = Except.ok none →
        decodeFavs codec (some s) = []) ∧
      (∀ s, codec.decompressFromEncodedURIComponent s = Except.ok (some "") →
        decodeFavs codec (some s) = []) := by
  refine ⟨rfl, rfl, fun s h => ?_, fun s h => ?_, fun s h => ?_⟩ <;>
    · unfold decodeFavs
      by_cases he : s = ""
      · simp [he]
      · simp [he, h]

/-- A codec with explicit failure modes, used to instantiate the decoding
theorem: `"boom"` throws, `"null"` decompresses to `null`, anything else
decompresses to itself. -/
def failingCodec : Codec :=
  { compressToEncodedURIComponent := fun s => s
    decompressFromEncodedURIComponent := fun s =>
      if s = "boom" then Except.error ()
      else if s = "null" then Except.ok none
      else Except.ok (some s) }

/-- C5 witness: the decoding theorem applied to the failing codec at the
throwing input, the `null` input, and the absent parameter. -/
theorem decodeFavs_never_throws_witness :
    decodeFavs failingCodec none = [] ∧
      decodeFavs failingCodec (some "boom") = [] ∧
      decodeFavs failingCodec (some "null") = [] :=
  ⟨(decodeFavs_never_throws failingCodec).1,
    (decodeFavs_never_throws failingCodec).2.2.1 "boom" (by rfl),
    (decodeFavs_never_throws failingCodec).2.2.2.1 "null" (by rfl)⟩

/-! ### Storage and string key lemmas -/

/-- Strings with equal character data are equal. -/
theorem strEq_of_data {s t : String} (h : s.data = t.data) : s = t := by
  cases s
  cases t
  exact congrArg String.mk h

/-- Character data of an appended string. -/
theorem strData_append (s t : String) : (s ++ t).data = s.data ++ t.data :=
  rfl

/-- Prepending the favorites key pattern is injective. -/
theorem favKey_inj {a b : String}
    (h : "favorites:" ++ a = "favorites:" ++ b) : a = b :=
  strEq_of_data (List.append_cancel_left
    (by rw [← strData_append, ← strData_append, h]))

/-- A favorites list key never equals the legacy key. -/
theorem favKey_ne_legacy (n : String) : "favorites:" ++ n ≠ "favorites" := by
  intro h
  have hd : ("favorites:" ++ n).data.length = ("favorites" : String).data.length := by
    rw [h]
  rw [strData_append, List.length_append] at hd
  simp at hd
  omega

/-- Reading a just-written key returns the written value. -/
theorem getItem_setItem_self (store : List (String × List String))
    (k : String) (v : List String) : getItem (setItem store k v) k = some v := by
  induction store with
  | nil => simp [setItem, getItem]
  | cons kv rest ih =>
    obtain ⟨k', v'⟩ := kv
    by_cases h : k' = k
    · simp [setItem, getItem, h]
    · simp [setItem, getItem, h, ih]

/-- Writing one key does not change reads of another. -/
theorem getItem_setItem_ne (store : List (String × List String))
    (k k' : String) (v : List String) (h : k' ≠ k) :
    getItem (setItem store k v) k' = getItem store k' := by
  induction store with
  | nil =>
    simp only [setItem, getItem]
    exact if_neg (fun e => h e.symm)
  | cons kv rest ih =>
    obtain ⟨k0, v0⟩ := kv
    simp only [setItem]
    by_cases h0 : k0 = k
    · rw [if_pos h0]
      simp only [getItem]
      rw [if_neg (fun e : k = k' => h e.symm),
        if_neg (fun e : k0 = k' => h (h0.symm.trans e).symm)]
    · rw [if_neg h0]
      simp only [getItem]
      by_cases h1 : k0 = k'
      · rw [if_pos h1, if_pos h1]
      · rw [if_neg h1, if_neg h1]
        exact ih

/-- Reading a removed key fails. -/
theorem getItem_removeItem_self (store : List (String × List String))
    (k : String) : getItem (removeItem store k) k = none := by
  induction store with
  | nil => rfl
  | cons kv rest ih =>
    obtain ⟨k0, v0⟩ := kv
    simp only [removeItem, List.filter_cons] at ih ⊢
    by_cases h0 : k0 = k
    · rw [if_neg (by simp [h0])]
      exact ih
    · rw [if_pos (by simp [h0])]
      simp only [getItem]
      rw [if_neg h0]
      exact ih

/-- Removing one key does not change reads of another. -/
theorem getItem_removeItem_ne (store : List (String × List String))
    (k k' : String) (h : k' ≠ k) :
    getItem (removeItem store k) k' = getItem store k' := by
  induction store with
  | nil => rfl
  | cons kv rest ih =>
    obtain ⟨k0, v0⟩ := kv
    simp only [removeItem, List.filter_cons] at ih ⊢
    by_cases h0 : k0 = k
    · rw [if_neg (by simp [h0])]
      simp only [getItem]
      rw [if_neg (fun e : k0 = k' => h (e.symm.trans h0))]
      exact ih
    · rw [if_pos (by simp [h0])]
      simp only [getItem]
      by_cases h1 : k0 = k'
      · rw [if_pos h1, if_pos h1]
      · rw [if_neg h1, if_neg h1]
        exact ih

/-- A defaulted lookup at a reduced index is a member of a nonempty
list. -/
theorem getD_mod_mem (l : List String) (h : l ≠ []) (n : Nat) (d : String) :
    l.getD (n % l.length) d ∈ l := by
  have hl : 0 < l.length := List.length_pos.mpr h
  have hn : n % l.length < l.length := Nat.mod_lt _ hl
  rw [List.getD_eq_getElem?_getD, List.getElem?_eq_getElem hn]
  exact List.getElem_mem hn

/-! ### List Manager: startup resolution and migration
(`generateRandomListName` and `loadInitialList` in `Map.tsx`) -/

/-- The adjective pool of `generateRandomListName`. -/
def adjectives : List String :=
  ["brave", "cheeky", "happy", "sleepy", "sneaky", "gentle", "noisy",
   "bouncy"]

/-- The animal pool of `generateRandomListName`. -/
def animals : List String :=
  ["otter", "fox", "tiger", "panda", "sloth", "owl", "lizard", "turtle"]

/-- `generateRandomListName`, with the two random draws of
`Math.floor(Math.random() * length)` supplied as indices (reduced modulo
the pool sizes, mirroring their in-range distribution). -/
def generateRandomListName (i j : Nat) : String :=
  (adjectives.getD (i % adjectives.length) "") ++ "-" ++
    (animals.getD (j % animals.length) "")

/-- `loadInitialList`: adopt a truthy list name from the URL fragment
(decoding its favorites), else migrate a nonempty legacy `favorites`
entry to a freshly named list and rewrite the URL, else adopt the first
stored list found by key scan, else clear to the no-list state. -/
def loadInitialList (codec : Codec) (i j : Nat) (s : AppState) : AppState :=
  match truthyStr s.frag.list with
  | some keyFromHash =>
    { s with listKey := some keyFromHash,
             favorites := decodeFavs codec s.frag.favs }
  | none =>
    let legacy := (getItem s.store "favorites").getD []
    if legacy.length > 0 then
      let newKey := generateRandomListName i j
      { store := removeItem (setItem s.store ("favorites:" ++ newKey) legacy)
          "favorites",
        frag := { list := some newKey,
                  favs := some (codec.compressToEncodedURIComponent
                    (String.intercalate "," legacy)) },
        listKey := some newKey,
        favorites := legacy }
    else
      match listNames s.store with
      | firstKey :: _ =>
        { s with listKey := some firstKey,
                 favorites := (getItem s.store ("favorites:" ++ firstKey)).getD [] }
      | [] => { s with listKey := none, favorites := [] }

/-- C6: when the URL names no list and a nonempty legacy favorites array
is stored, startup migration removes the legacy key, stores the same
array under `favorites:<name>` for the freshly generated adjective-animal
name, adopts that list as active, and rewrites the URL fragment to
`list=<name>` with a `favs` value that decompresses back to the
comma-join of the array. -/
theorem loadInitialList_migrates_legacy (codec : Codec) (i j : Nat)
    (s : AppState) (legacy : List String)
    (hrt : ∀ t, codec.decompressFromEncodedURIComponent
      (codec.compressToEncodedURIComponent t) = Except.ok (some t))
    (hurl : truthyStr s.frag.list = none)
    (hleg : getItem s.store "favorites" = some legacy)
    (hne : legacy ≠ []) :
    (loadInitialList codec i j s).listKey =
        some (generateRandomListName i j) ∧
      (loadInitialList codec i j s).favorites = legacy ∧
      getItem (loadInitialList codec i j s).store "favorites" = none ∧
      getItem (loadInitialList codec i j s).store
        ("favorites:" ++ generateRandomListName i j) = some legacy ∧
      (loadInitialList codec i j s).frag.list =
        some (generateRandomListName i j) ∧
      (∃ f, (loadInitialList codec i j s).frag.favs = some f ∧
        codec.decompressFromEncodedURIComponent f =
          Except.ok (some (String.intercalate "," legacy))) ∧
      (∃ a ∈ adjectives, ∃ b ∈ animals,
        generateRandomListName i j = a ++ "-" ++ b) := by
  have hload : loadInitialList codec i j s =
      { store := removeItem
          (setItem s.store ("favorites:" ++ generateRandomListName i j) legacy)
          "favorites",
        frag := { list := some (generateRandomListName i j),
                  favs := some (codec.compressToEncodedURIComponent
                    (String.intercalate "," legacy)) },
        listKey := some (generateRandomListName i j),
        favorites := legacy } := by
    unfold loadInitialList
    rw [hurl]
    simp only [hleg, Option.getD_some]
    rw [if_pos (List.length_pos.mpr hne)]
  refine ⟨by rw [hload], by rw [hload], ?_, ?_, by rw [hload], ?_, ?_⟩
  · rw [hload]
    exact getItem_removeItem_self _ _
  · rw [hload]
    show getItem _ _ = some legacy
    rw [getItem_removeItem_ne _ _ _ (favKey_ne_legacy _),
      getItem_setItem_self]
  · refine ⟨codec.compressToEncodedURIComponent (String.intercalate "," legacy),
      by rw [hload], hrt _⟩
  · refine ⟨adjectives.getD (i % adjectives.length) "",
      getD_mod_mem adjectives (by decide) i "",
      animals.getD (j % animals.length) "",
      getD_mod_mem animals (by decide) j "", rfl⟩

/-- The identity codec: compression is the identity and decompression
always succeeds with the input, a trivially reversible instance. -/
def identityCodec : Codec :=
  { compressToEncodedURIComponent := fun s => s
    decompressFromEncodedURIComponent := fun s => Except.ok (some s) }

/-- The state of the migration example: a legacy favorites array
`["X1", "X2"]` in storage and an empty URL fragment. -/
def exampleLegacyState : AppState :=
  { store := [("favorites", ["X1", "X2"])],
    frag := { list := none, favs := none },
    listKey := none,
    favorites := [] }

/-- C6 witness: migration of the legacy array `["X1", "X2"]` under the
identity codec with random draws `0, 0` (name `"brave-otter"`). -/
theorem loadInitialList_migrates_legacy_witness :
    (loadInitialList identityCodec 0 0 exampleLegacyState).listKey =
        some (generateRandomListName 0 0) ∧
      getItem (loadInitialList identityCodec 0 0 exampleLegacyState).store
        "favorites" = none ∧
      getItem (loadInitialList identityCodec 0 0 exampleLegacyState).store
        ("favorites:" ++ generateRandomListName 0 0) = some ["X1", "X2"] := by
  have h := loadInitialList_migrates_legacy identityCodec 0 0
    exampleLegacyState ["X1", "X2"] (fun t => rfl) (by decide) (by decide)
    (by decide)
  exact ⟨h.1, h.2.2.1, h.2.2.2.1⟩

/-! ### Mutations of the active favorites list

Each UI mutation is its event handler followed (when the handler updated
the `favorites`/`listKey` component state) by the favorites-sync effect
that React then runs: the effect persists the active list and rewrites
the URL fragment with the compressed comma-joined labels, and returns
early when no list is active. -/

/-- JavaScript template-literal rendering of the possibly null list key
(`` `favorites:${listKey}` `` prints `null` for a null key). -/
def keyStr : Option String → String
  | none => "null"
  | some k => k

/-- The `toggleFavorite` click handler: toggle the label in the in-memory
favorites and persist the updated list under `favorites:<listKey>`. -/
def toggleFavoriteHandler (label : String) (s : AppState) : AppState :=
  let updated := toggleFavorite label s.favorites
  { s with favorites := updated,
           store := setItem s.store ("favorites:" ++ keyStr s.listKey)
             updated }

/-- The favorites-sync effect: `if (!listKey) return` is a falsiness
check, so the effect does nothing both for a null and for an
empty-string list key; otherwise it persists the favorites under the
active key and rewrites the URL fragment to
`list=<key>&favs=<compressed comma-join>`. -/
def syncFavoritesEffect (codec : Codec) (s : AppState) : AppState :=
  match truthyStr s.listKey with
  | none => s
  | some k =>
    { s with
        store := setItem s.store ("favorites:" ++ k) s.favorites,
        frag := { list := some k,
                  favs := some (codec.compressToEncodedURIComponent
                    (String.intercalate "," s.favorites)) } }

/-- The select-list button handler: adopt the clicked list, load its
persisted favorites, and write the fragment with the raw (uncompressed)
comma-join, as the source does. -/
def selectListHandler (key : String) (s : AppState) : AppState :=
  let stored := (getItem s.store ("favorites:" ++ key)).getD []
  { s with listKey := some key, favorites := stored,
           frag := { list := some key,
                     favs := some (String.intercalate "," stored) } }

/-- The create-list button handler: for a trimmed, nonempty, unused name,
create an empty list, adopt it, and write the fragment `list=<name>`
without a `favs` parameter; otherwise do nothing. -/
def createListHandler (name : String) (s : AppState) : AppState :=
  let newKey := jsTrim name
  if newKey != "" && !((listNames s.store).contains newKey) then
    { store := setItem s.store ("favorites:" ++ newKey) [],
      frag := { list := some newKey, favs := none },
      listKey := some newKey,
      favorites := [] }
  else s

/-- The delete-list button handler (after the user confirms): remove the
persisted entry; if the deleted list was active, fall back to the first
list found by key scan (`allKeys[0] || null`, so an empty first name
counts as no fallback) or to the cleared no-list state. -/
def deleteListHandler (codec : Codec) (key : String) (s : AppState) :
    AppState :=
  let store1 := removeItem s.store ("favorites:" ++ key)
  if s.listKey = some key then
    let fallbackKey : Option String :=
      match listNames store1 with
      | fk :: _ => if fk = "" then none else some fk
      | [] => none
    match fallbackKey with
    | some fk =>
      let fallbackFavorites := (getItem store1 ("favorites:" ++ fk)).getD []
      { store := store1,
        frag := { list := some fk,
                  favs := some (codec.compressToEncodedURIComponent
                    (String.intercalate "," fallbackFavorites)) },
        listKey := some fk,
        favorites := fallbackFavorites }
    | none =>
      { store := store1, frag := { list := none, favs := none },
        listKey := none, favorites := [] }
  else { s with store := store1 }

/-- The mutations of the active favorites list named by the consistency
invariant. -/
inductive Mutation where
  | toggle (label : String)
  | selectList (key : String)
  | createList (name : String)
  | deleteList (key : String)
  | migrate (i j : Nat)

/-- A mutation applied to the app state: the handler, followed by the
favorites-sync effect whenever the handler updated the favorites or
list-key state (the effect's dependencies). -/
def applyMutation (codec : Codec) (m : Mutation) (s : AppState) : AppState :=
  match m with
  | Mutation.toggle label =>
    syncFavoritesEffect codec (toggleFavoriteHandler label s)
  | Mutation.selectList key =>
    syncFavoritesEffect codec (selectListHandler key s)
  | Mutation.createList name =>
    if jsTrim name != "" && !((listNames s.store).contains (jsTrim name)) then
      syncFavoritesEffect codec (createListHandler name s)
    else createListHandler name s
  | Mutation.deleteList key =>
    if s.listKey = some key then
      syncFavoritesEffect codec (deleteListHandler codec key s)
    else deleteListHandler codec key s
  | Mutation.migrate i j =>
    syncFavoritesEffect codec (loadInitialList codec i j s)

/-- The consistency invariant of the active list: when a list is active,
storage holds exactly the in-memory label sequence under
`favorites:<name>`, the fragment's `list` parameter is the active name,
and the fragment's `favs` parameter is the compressed comma-join of that
sequence. -/
def ActiveConsistent (codec : Codec) (s : AppState) : Prop :=
  match s.listKey with
  | none => True
  | some k =>
    getItem s.store ("favorites:" ++ k) = some s.favorites ∧
      s.frag.list = some k ∧
      s.frag.favs = some (codec.compressToEncodedURIComponent
        (String.intercalate "," s.favorites))

/-- A truthy projection hit identifies the underlying option. -/
theorem truthyStr_eq_some {o : Option String} {k : String}
    (h : truthyStr o = some k) : o = some k := by
  cases o with
  | none => exact Option.noConfusion h
  | some s =>
    simp only [truthyStr] at h
    by_cases he : s = ""
    · rw [if_pos he] at h
      exact Option.noConfusion h
    · rw [if_neg he] at h
      exact h

/-- A codec whose compression is visibly not the identity: it marks the
input with a leading `"Z"`, which decompression strips (a reversible
pair). -/
def markingCodec : Codec :=
  { compressToEncodedURIComponent := fun s => "Z" ++ s
    decompressFromEncodedURIComponent := fun s =>
      Except.ok (some (strDrop s 1)) }

/-- The state of the C1 counterexample: the active list `"a"` is fully
consistent, and an empty-named list (storage key exactly `"favorites:"`)
also exists. -/
def examplePreSelectState : AppState :=
  { store := [("favorites:a", ["L"]), ("favorites:", ["y"])],
    frag := { list := some "a", favs := some "ZL" },
    listKey := some "a",
    favorites := ["L"] }

/-- C1 counterexample: from a fully consistent state, selecting the
empty-named list runs the select handler — which writes the raw
uncompressed comma-join into the fragment — and the sync effect then
bails out on the falsy empty list key, so the fragment keeps `favs =
"y"` while the compressed comma-join is `"Zy"`: the claimed
storage/fragment consistency is violated after a select mutation. -/
theorem selectList_empty_name_breaks_invariant :
    ActiveConsistent markingCodec examplePreSelectState ∧
      (applyMutation markingCodec (Mutation.selectList "")
        examplePreSelectState).listKey = some "" ∧
      (applyMutation markingCodec (Mutation.selectList "")
        examplePreSelectState).frag.favs = some "y" ∧
      markingCodec.compressToEncodedURIComponent (String.intercalate ","
        (applyMutation markingCodec (Mutation.selectList "")
          examplePreSelectState).favorites) = "Zy" ∧
      ¬ ActiveConsistent markingCodec
        (applyMutation markingCodec (Mutation.selectList "")
          examplePreSelectState) := by
  refine ⟨⟨rfl, rfl, by decide⟩, by decide, by decide, by decide,
    fun h => ?_⟩
  exact absurd h.2.2 (by decide)

/-- The amended consistency invariant: storage/fragment consistency of
the active list is demanded whenever the active name is truthy
(nonempty); an empty-named active list is exempt, since the sync effect
returns early on its falsy key. -/
def ActiveConsistentAmended (codec : Codec) (s : AppState) : Prop :=
  match truthyStr s.listKey with
  | none => True
  | some k =>
    getItem s.store ("favorites:" ++ k) = some s.favorites ∧
      s.frag.list = some k ∧
      s.frag.favs = some (codec.compressToEncodedURIComponent
        (String.intercalate "," s.favorites))

/-- The sync effect establishes the amended invariant unconditionally:
it either performs the full sync or bails on a falsy key, which the
amended invariant exempts. -/
theorem activeConsistentAmended_syncEffect (codec : Codec) (s : AppState) :
    ActiveConsistentAmended codec (syncFavoritesEffect codec s) := by
  unfold syncFavoritesEffect
  cases h : truthyStr s.listKey with
  | none =>
    unfold ActiveConsistentAmended
    rw [h]
    trivial
  | some k =>
    unfold ActiveConsistentAmended
    dsimp only
    rw [h]
    exact ⟨getItem_setItem_self _ _ _, rfl, rfl⟩

/-- C1 (amended): every mutation of the active favorites list — toggle,
select, create, delete (including its fallback), and startup migration —
preserves the amended consistency invariant: afterwards, whenever the
active list's name is nonempty, the storage key `favorites:<name>` holds
the label sequence whose compressed comma-join is the fragment's `favs`
parameter and the fragment's `list` parameter is the active name; an
empty-named active list is exempt, because the sync effect returns early
on its falsy key and can leave the fragment stale. -/
theorem activeConsistentAmended_after_mutation (codec : Codec)
    (m : Mutation) (s : AppState) (h : ActiveConsistentAmended codec s) :
    ActiveConsistentAmended codec (applyMutation codec m s) := by
  cases m with
  | toggle label =>
    simp only [applyMutation]
    exact activeConsistentAmended_syncEffect codec _
  | selectList key =>
    simp only [applyMutation]
    exact activeConsistentAmended_syncEffect codec _
  | createList name =>
    simp only [applyMutation]
    by_cases hg : (jsTrim name != "" &&
        !((listNames s.store).contains (jsTrim name))) = true
    · rw [if_pos hg]
      exact activeConsistentAmended_syncEffect codec _
    · rw [if_neg hg]
      unfold createListHandler
      dsimp only
      rw [if_neg hg]
      exact h
  | deleteList key =>
    simp only [applyMutation]
    by_cases hk : s.listKey = some key
    · rw [if_pos hk]
      exact activeConsistentAmended_syncEffect codec _
    · rw [if_neg hk]
      unfold deleteListHandler
      dsimp only
      rw [if_neg hk]
      unfold ActiveConsistentAmended at h ⊢
      dsimp only
      cases hl : truthyStr s.listKey with
      | none => trivial
      | some k0 =>
        simp only [hl] at h
        have hsk : s.listKey = some k0 := truthyStr_eq_some hl
        have hkk : ¬(k0 = key) := fun e => hk (hsk.trans (congrArg some e))
        refine ⟨?_, h.2.1, h.2.2⟩
        rw [getItem_removeItem_ne _ _ _
          (fun e : ("favorites:" ++ k0) = ("favorites:" ++ key) =>
            hkk (favKey_inj e))]
        exact h.1
  | migrate i j =>
    simp only [applyMutation]
    exact activeConsistentAmended_syncEffect codec _

/-- A concrete consistent state with one active list `"alpha"`. -/
def exampleActiveState : AppState :=
  { store := [("favorites:alpha", ["L1"])],
    frag := { list := some "alpha", favs := some "L1" },
    listKey := some "alpha",
    favorites := ["L1"] }

/-- C1 witness: the amended invariant-preservation theorem applied to a
toggle on a concrete consistent state under the identity codec. -/
theorem activeConsistentAmended_after_mutation_witness :
    ActiveConsistentAmended identityCodec
      (applyMutation identityCodec (Mutation.toggle "L2")
        exampleActiveState) :=
  activeConsistentAmended_after_mutation identityCodec (Mutation.toggle "L2")
    exampleActiveState ⟨rfl, rfl, rfl⟩

/-- A toggle always changes the favorites list: removal strictly shortens
it and addition strictly lengthens it. -/
theorem toggleFavorite_ne (label : String) (prev : List String) :
    toggleFavorite label prev ≠ prev := by
  unfold toggleFavorite
  by_cases hc : prev.contains label
  · rw [if_pos hc]
    intro e
    have hlt : (prev.filter (fun f => f != label)).length < prev.length :=
      List.length_filter_lt_length_iff_exists.mpr
        ⟨label, List.elem_iff.mp hc, by simp⟩
    rw [e] at hlt
    exact lt_irrefl _ hlt
  · rw [if_neg hc]
    intro e
    have hlen := congrArg List.length e
    simp at hlen

/-- The literal storage key produced by the template for a null list
key. -/
theorem favNullKey : ("favorites:" ++ "null" : String) = "favorites:null" := by
  decide

/-- C9: toggling a booth label with no active list is not rejected: the
in-memory favorites sequence still changes (and equals the toggle of the
previous sequence), it is persisted under the literal key
`favorites:null`, and the URL fragment is untouched because the sync
effect returns early without a list key. -/
theorem toggle_without_active_list (codec : Codec) (s : AppState)
    (label : String) (h : s.listKey = none) :
    (applyMutation codec (Mutation.toggle label) s).frag = s.frag ∧
      (applyMutation codec (Mutation.toggle label) s).listKey = none ∧
      (applyMutation codec (Mutation.toggle label) s).favorites =
        toggleFavorite label s.favorites ∧
      (applyMutation codec (Mutation.toggle label) s).favorites ≠
        s.favorites ∧
      getItem (applyMutation codec (Mutation.toggle label) s).store
        "favorites:null" = some (toggleFavorite label s.favorites) := by
  have happ : applyMutation codec (Mutation.toggle label) s =
      { s with favorites := toggleFavorite label s.favorites,
               store := setItem s.store "favorites:null"
                 (toggleFavorite label s.favorites) } := by
    simp only [applyMutation, toggleFavoriteHandler, syncFavoritesEffect,
      truthyStr, keyStr, h, favNullKey]
  refine ⟨by rw [happ], ?_, by rw [happ], ?_, ?_⟩
  · rw [happ]
    exact h
  · rw [happ]
    exact toggleFavorite_ne label s.favorites
  · rw [happ]
    exact getItem_setItem_self _ _ _

/-- A state with no active list. -/
def exampleNoListState : AppState :=
  { store := [], frag := { list := none, favs := none },
    listKey := none, favorites := [] }

/-- C9 witness: a toggle on a concrete state without an active list. -/
theorem toggle_without_active_list_witness :
    (applyMutation identityCodec (Mutation.toggle "B1")
        exampleNoListState).frag = exampleNoListState.frag ∧
      getItem (applyMutation identityCodec (Mutation.toggle "B1")
        exampleNoListState).store "favorites:null" =
        some (toggleFavorite "B1" exampleNoListState.favorites) := by
  have h := toggle_without_active_list identityCodec exampleNoListState
    "B1" rfl
  exact ⟨h.1, h.2.2.2.2⟩

/-! ### Deleting a list (`deleteListHandler`) -/

/-- A scanned key that starts with the pattern and strips to `n` is
exactly the favorites key of `n`. -/
theorem favKey_of_scan {k n : String}
    (hstart : jsStartsWith k "favorites:" = true)
    (hdrop : strDrop k "favorites:".length = n) :
    k = "favorites:" ++ n := by
  obtain ⟨t, ht⟩ := List.isPrefixOf_iff_prefix.mp hstart
  apply strEq_of_data
  rw [strData_append]
  have h1 : k.data.drop ("favorites:".data.length) = t := by
    rw [← ht, List.drop_left]
  have h2 : n.data = t := by
    rw [← hdrop]
    exact h1
  rw [h2, ← ht]

/-- After removing a list's storage entry, the list's name no longer
appears in the scanned registry. -/
theorem not_mem_listNames_removeItem
    (store : List (String × List String)) (key : String) :
    key ∉ listNames (removeItem store ("favorites:" ++ key)) := by
  intro hmem
  unfold listNames at hmem
  rw [List.mem_map] at hmem
  obtain ⟨k0, hk0, hdrop⟩ := hmem
  rw [List.mem_filter] at hk0
  obtain ⟨hkeys, hstart⟩ := hk0
  rw [favKey_of_scan hstart hdrop] at hkeys
  rw [List.mem_map] at hkeys
  obtain ⟨kv, hkv, hfst⟩ := hkeys
  unfold removeItem at hkv
  rw [List.mem_filter] at hkv
  have hbne := hkv.2
  rw [hfst] at hbne
  simp at hbne

/-- The state of the C7 counterexample: the active list `"alpha"`
coexists with a list whose name is the empty string (storage key exactly
`"favorites:"`). -/
def exampleEmptyNameState : AppState :=
  { store := [("favorites:alpha", ["L1"]), ("favorites:", ["y"])],
    frag := { list := some "alpha", favs := some "L1" },
    listKey := some "alpha",
    favorites := ["L1"] }

/-- C7 counterexample: deleting the active list `"alpha"` while the
empty-named list remains (the key scan finds the name `""` first) does
not make that remaining list active — `allKeys[0] || null` treats the
empty name as no fallback, so the state becomes no-list with a cleared
fragment, against the claim that the first scanned remaining list becomes
active. -/
theorem deleteList_empty_name_diverges :
    listNames (removeItem exampleEmptyNameState.store
      ("favorites:" ++ "alpha")) = [""] ∧
      (applyMutation identityCodec (Mutation.deleteList "alpha")
        exampleEmptyNameState).listKey = none ∧
      (applyMutation identityCodec (Mutation.deleteList "alpha")
        exampleEmptyNameState).frag = { list := none, favs := none } := by
  decide

/-- C7 (amended): deleting a list always removes its persisted entry; if
the deleted list was active, then — scanning the remaining storage keys —
an empty scan, or a first scanned name equal to the empty string, leaves
the no-list state with empty favorites and a cleared fragment, while a
nonempty first scanned name becomes active with its persisted favorites
loaded and the fragment rewritten to that list and its compressed
comma-join. -/
theorem deleteList_resolution (codec : Codec) (s : AppState) (key : String) :
    getItem (applyMutation codec (Mutation.deleteList key) s).store
        ("favorites:" ++ key) = none ∧
      (s.listKey = some key →
        (match listNames (removeItem s.store ("favorites:" ++ key)) with
         | [] =>
           (applyMutation codec (Mutation.deleteList key) s).listKey = none ∧
             (applyMutation codec (Mutation.deleteList key) s).favorites = [] ∧
             (applyMutation codec (Mutation.deleteList key) s).frag =
               { list := none, favs := none }
         | fk :: _ =>
           if fk = "" then
             (applyMutation codec (Mutation.deleteList key) s).listKey = none ∧
               (applyMutation codec (Mutation.deleteList key) s).favorites = [] ∧
               (applyMutation codec (Mutation.deleteList key) s).frag =
                 { list := none, favs := none }
           else
             (applyMutation codec (Mutation.deleteList key) s).listKey =
                 some fk ∧
               (applyMutation codec (Mutation.deleteList key) s).favorites =
                 (getItem (removeItem s.store ("favorites:" ++ key))
                   ("favorites:" ++ fk)).getD [] ∧
               (applyMutation codec (Mutation.deleteList key) s).frag.list =
                 some fk ∧
               (applyMutation codec (Mutation.deleteList key) s).frag.favs =
                 some (codec.compressToEncodedURIComponent
                   (String.intercalate ","
                     (applyMutation codec (Mutation.deleteList key) s).favorites)) ∧
               getItem (applyMutation codec (Mutation.deleteList key) s).store
                   ("favorites:" ++ fk) =
                 some (applyMutation codec (Mutation.deleteList key) s).favorites)) := by
  by_cases hk : s.listKey = some key
  · simp only [applyMutation]
    rw [if_pos hk]
    unfold deleteListHandler
    dsimp only
    rw [if_pos hk]
    cases hnames : listNames (removeItem s.store ("favorites:" ++ key)) with
    | nil =>
      dsimp only
      unfold syncFavoritesEffect truthyStr
      dsimp only
      exact ⟨getItem_removeItem_self _ _, fun _ => ⟨rfl, rfl, rfl⟩⟩
    | cons fk rest =>
      dsimp only
      by_cases hfk : fk = ""
      · rw [if_pos hfk, if_pos hfk]
        dsimp only
        unfold syncFavoritesEffect truthyStr
        dsimp only
        exact ⟨getItem_removeItem_self _ _, fun _ => ⟨rfl, rfl, rfl⟩⟩
      · rw [if_neg hfk, if_neg hfk]
        dsimp only
        unfold syncFavoritesEffect truthyStr
        dsimp only
        rw [if_neg hfk]
        dsimp only
        have hfkmem : fk ∈ listNames (removeItem s.store ("favorites:" ++ key)) := by
          rw [hnames]
          exact List.mem_cons_self fk rest
        have hfkne : fk ≠ key :=
          fun e => not_mem_listNames_removeItem s.store key (e ▸ hfkmem)
        refine ⟨?_, fun _ => ?_⟩
        · rw [getItem_setItem_ne _ _ _ _
            (fun e : ("favorites:" ++ key) = ("favorites:" ++ fk) =>
              hfkne (favKey_inj e).symm)]
          exact getItem_removeItem_self _ _
        · exact ⟨rfl, rfl, rfl, rfl, getItem_setItem_self _ _ _⟩
  · simp only [applyMutation]
    rw [if_neg hk]
    unfold deleteListHandler
    dsimp only
    rw [if_neg hk]
    exact ⟨getItem_removeItem_self _ _, fun e => absurd e hk⟩

/-- A state whose only list `"solo"` is active. -/
def exampleSoloState : AppState :=
  { store := [("favorites:solo", ["L1"])],
    frag := { list := some "solo", favs := some "L1" },
    listKey := some "solo",
    favorites := ["L1"] }

/-- C7 witness: deleting the only existing list clears everything. -/
theorem deleteList_resolution_witness :
    getItem (applyMutation identityCodec (Mutation.deleteList "solo")
        exampleSoloState).store ("favorites:" ++ "solo") = none ∧
      (applyMutation identityCodec (Mutation.deleteList "solo")
        exampleSoloState).listKey = none ∧
      (applyMutation identityCodec (Mutation.deleteList "solo")
        exampleSoloState).frag = { list := none, favs := none } := by
  have h := deleteList_resolution identityCodec exampleSoloState "solo"
  have h2 := h.2 rfl
  rw [show listNames (removeItem exampleSoloState.store
    ("favorites:" ++ "solo")) = [] from by decide] at h2
  exact ⟨h.1, h2.1, h2.2.2⟩

/-! ### Print Adapter zoom resolution (`EasyPrintControl.tsx`) -/

/-- The static hall-to-zoom table tuned per hall raster aspect ratio. -/
def hallZoomLevels : List (String × ℚ) :=
  [("1", -1.65), ("2", -1.65), ("3", -2.75), ("4", -2), ("5", -2.25),
   ("6", -1.75), ("7", -2), ("GA", -2.75), ("FG1", -1.75), ("FG2", -2),
   ("FG3", -1)]

/-- The print target zoom:
`customZoom !== undefined ? customZoom : (hallId ? hallZoomLevels[hallId] : -2) || -2`.
An explicitly supplied custom zoom wins; otherwise a truthy hall id is
looked up in the table, with `|| -2` turning a missing (or zero) entry
into the fallback; a falsy hall id yields the fallback directly. -/
def printZoom (customZoom : Option ℚ) (hallId : Option String) : ℚ :=
  match customZoom with
  | some z => z
  | none =>
    match hallId with
    | none => -2
    | some h =>
      if h = "" then -2
      else
        match List.lookup h hallZoomLevels with
        | some v => if v = 0 then -2 else v
        | none => -2

/-- No table entry is zero, so the `|| -2` coalescing never overrides a
found entry. -/
theorem hallZoomLevels_lookup_ne_zero (h : String) (v : ℚ)
    (hv : List.lookup h hallZoomLevels = some v) : v ≠ 0 := by
  simp only [hallZoomLevels, List.lookup] at hv
  repeat' split at hv
  all_goals first
    | exact Option.noConfusion hv
    | · obtain rfl : _ = v := Option.some.inj hv
        norm_num

/-- C8: the print target zoom resolution — a supplied custom zoom
overrides everything; otherwise a hall id found in the static 11-entry
table yields that table entry; a hall id not in the table, or no hall id
at all, yields the fixed fallback level `-2`. -/
theorem printZoom_resolution :
    (∀ z hallId, printZoom (some z) hallId = z) ∧
      hallZoomLevels.length = 11 ∧
      (∀ h v, List.lookup h hallZoomLevels = some v →
        printZoom none (some h) = v) ∧
      (∀ h, List.lookup h hallZoomLevels = none →
        printZoom none (some h) = -2) ∧
      printZoom none none = -2 := by
  refine ⟨fun z hallId => rfl, rfl, fun h v hv => ?_, fun h hv => ?_, rfl⟩
  · have hne : h ≠ "" := by
      rintro rfl
      rw [show List.lookup "" hallZoomLevels = (none : Option ℚ) from rfl] at hv
      exact Option.noConfusion hv
    unfold printZoom
    dsimp only
    rw [if_neg hne, hv]
    dsimp only
    rw [if_neg (hallZoomLevels_lookup_ne_zero h v hv)]
  · unfold printZoom
    dsimp only
    by_cases hne : h = ""
    · rw [if_pos hne]
    · rw [if_neg hne, hv]

/-- C8 witness: the zoom resolution theorem applied to a custom zoom, a
hall in the table, and a hall missing from the table. -/
theorem printZoom_resolution_witness :
    printZoom (some (1 / 2)) (some "3") = 1 / 2 ∧
      List.lookup "3" hallZoomLevels = some (-2.75) ∧
      printZoom none (some "3") = -2.75 ∧
      List.lookup "XX" hallZoomLevels = none ∧
      printZoom none (some "XX") = -2 :=
  ⟨printZoom_resolution.1 (1 / 2) (some "3"), rfl,
    printZoom_resolution.2.2.1 "3" (-2.75) rfl, rfl,
    printZoom_resolution.2.2.2.1 "XX" rfl⟩
